import Mathlib

/-!
Verification development for the page/driver subsystem of the
murlokswarm-style app bridge.

Embedded source files:
* `src/drivers/test/page.go` — the `page` type and its operations
  (`newPage`, `Load`, `load`, `Reload`, `Previous`, `Next`, `Referer`,
  `Close`).
* `src/drivers/mac/driver.go` — the dispatch-queue worker loop inside
  `Driver.Run` and the enqueue operation `CallOnUIGoroutine`.

Collaborators that live in this repository but outside the embedded
sources (the `History` implementation behind `app.NewHistory` /
`app.NewConcurrentHistory`, the element directory behind
`app.NewElemDB`, the `bridge.GoBridge` handler wrapper) are modelled
from the specification, as noted on each definition.  External
collaborators (the component `Factory`, the `Markup` engine,
`url.Parse` / `URL.String` normalization, `app.ComponentNameFromURL`)
are kept abstract as explicit function parameters bundled in `Env`,
so every page operation stays an executable function of its inputs.

Errors are values of the inductive `Err`; machine side conditions do
not arise (no machine integers are involved in the embedded code).
A Go panic inside a queue entry is modelled as the entry returning
`Except.error` with the panic message.
-/

/-- Error values produced by the embedded operations.  `wrapped u pid e`
models `errors.Wrapf(err, "loading %s in test page %p failed", u, p)`:
the underlying error `e` wrapped with the URL `u` and the page identity
`pid`. -/
inductive Err where
  | notFound
  | parseErr (s : String)
  | factoryErr (s : String)
  | mountErr (s : String)
  | wrapped (u : String) (pid : Nat) (e : Err)
deriving Repr, DecidableEq

/-- Modelled from the spec: the `History` implementation behind
`app.NewHistory` / `app.NewConcurrentHistory` is not among the embedded
source files; §3 and §4.3 of the specification describe it as an
ordered sequence of location strings plus a cursor with the invariant
`0 <= cursor < len(entries)` once non-empty. -/
structure History where
  entries : List String
  cursor : Nat
deriving Repr, DecidableEq

/-- A fresh history: no entries, cursor at 0. -/
def History.empty : History := ⟨[], 0⟩

/-- Well-formedness invariant from spec §3: either the history is empty
with the cursor at 0, or the cursor points inside the entries. -/
def History.WF (h : History) : Prop :=
  (h.entries = [] ∧ h.cursor = 0) ∨ h.cursor < h.entries.length

/-- Modelled from the spec (§4.3): `Current()` returns `entries[cursor]`
and fails NotFound if the history is empty. -/
def History.Current (h : History) : Except Err String :=
  match h.entries.get? h.cursor with
  | some u => Except.ok u
  | none => Except.error Err.notFound

/-- Modelled from the spec (§4.3): `NewEntry(u)` pushes `u` when the
history is empty or `u` equals the current entry; otherwise it drops
every entry with index beyond the cursor, appends `u`, and moves the
cursor to the new last entry. -/
def History.NewEntry (u : String) (h : History) : History :=
  if h.entries.isEmpty ∨ h.Current.toOption = some u then
    ⟨h.entries ++ [u], h.entries.length⟩
  else
    ⟨h.entries.take (h.cursor + 1) ++ [u], (h.entries.take (h.cursor + 1)).length⟩

/-- Modelled from the spec (§4.3): `Previous()` fails NotFound at cursor
0, otherwise steps the cursor back and returns the new current entry.
The mutation is made explicit by returning the updated history. -/
def History.Previous (h : History) : Except Err (String × History) :=
  if h.cursor = 0 then Except.error Err.notFound
  else
    match h.entries.get? (h.cursor - 1) with
    | some u => Except.ok (u, ⟨h.entries, h.cursor - 1⟩)
    | none => Except.error Err.notFound

/-- Modelled from the spec (§4.3): `Next()` fails NotFound at the last
entry (or on an empty history), otherwise steps the cursor forward and
returns the new current entry. -/
def History.Next (h : History) : Except Err (String × History) :=
  match h.entries.get? (h.cursor + 1) with
  | some u => Except.ok (u, ⟨h.entries, h.cursor + 1⟩)
  | none => Except.error Err.notFound

/-- The collaborators a `page` calls out to, kept abstract as pure
functions.  `parse` models `url.Parse` composed with `URL.String`
normalization: it either fails or yields the normalized URL string
(`u.String()`).  `compoName` models `app.ComponentNameFromURL` on the
parsed URL.  `factoryNew` models `Factory.New` resolving a component
(identified by a `Nat`) from a component name.  `mountFails` models
whether `markup.Mount` fails on a given component and with which
underlying error. -/
structure Env where
  parse : String → Except Err String
  compoName : String → String
  factoryNew : String → Except Err Nat
  mountFails : Nat → Option Err

/-- State of a `page` from `src/drivers/test/page.go`: its identity,
its history, the set of components currently mounted in its markup
engine (the markup engine's own state, as far as the embedded code
observes it), and the `component` field returned by `Component()`. -/
structure PageState where
  id : Nat
  history : History
  markupMounted : List Nat
  component : Option Nat
deriving Repr, DecidableEq

/-- `page.load` from `src/drivers/test/page.go` (the internal load
transition).  If a component is mounted it is dismounted first; then a
new component is resolved from the factory and mounted.  On factory
failure the error is returned as is; on mount failure the error is
wrapped with the URL and the page identity.  Only on full success is
the `component` field replaced.  The Go method mutates the receiver in
place, so the state reached at the point of failure is returned next
to the error. -/
def PageState.load (env : Env) (u : String) (p : PageState) :
    PageState × Option Err :=
  let p1 := match p.component with
    | some c => { p with markupMounted := p.markupMounted.erase c }
    | none => p
  match env.factoryNew (env.compoName u) with
  | Except.error e => (p1, some e)
  | Except.ok compo =>
    match env.mountFails compo with
    | some e => (p1, some (Err.wrapped u p.id e))
    | none =>
      ({ p1 with markupMounted := compo :: p1.markupMounted,
                 component := some compo }, none)

/-- The history-recording step of `page.Load` from
`src/drivers/test/page.go`: `if currentURL, err = p.history.Current();
err != nil || currentURL != u.String() { p.history.NewEntry(u.String()) }`
— a new entry is recorded exactly when the current entry is absent or
differs from the normalized URL. -/
def loadHistoryStep (u : String) (p : PageState) : PageState :=
  match p.history.Current with
  | Except.error _ => { p with history := History.NewEntry u p.history }
  | Except.ok cur =>
    if cur ≠ u then { p with history := History.NewEntry u p.history }
    else p

/-- `page.Load` from `src/drivers/test/page.go`.  Parse the raw URL
(failing early on a parse error); record a new history entry when due
(`loadHistoryStep`); then run the internal load transition.  (The
`fmt.Sprintf(rawurl, v...)` formatting step is the identity here since
the embedded callers pass no varargs.) -/
def PageState.Load (env : Env) (rawurl : String) (p : PageState) :
    PageState × Option Err :=
  match env.parse rawurl with
  | Except.error e => (p, some e)
  | Except.ok u => PageState.load env u (loadHistoryStep u p)

/-- `page.Reload` from `src/drivers/test/page.go`: re-resolve the
current history entry, parse it, and repeat the internal load. -/
def PageState.Reload (env : Env) (p : PageState) : PageState × Option Err :=
  match p.history.Current with
  | Except.error e => (p, some e)
  | Except.ok rawurl =>
    match env.parse rawurl with
    | Except.error e => (p, some e)
    | Except.ok u => PageState.load env u p

/-- `page.Previous` from `src/drivers/test/page.go`: step the history
back; on failure return the error with the page untouched, otherwise
parse the resulting URL and repeat the internal load. -/
def PageState.Previous (env : Env) (p : PageState) : PageState × Option Err :=
  match History.Previous p.history with
  | Except.error e => (p, some e)
  | Except.ok (rawurl, h') =>
    match env.parse rawurl with
    | Except.error e => ({ p with history := h' }, some e)
    | Except.ok u => PageState.load env u { p with history := h' }

/-- `page.Next` from `src/drivers/test/page.go`: symmetric to
`Previous` with the history stepped forward. -/
def PageState.Next (env : Env) (p : PageState) : PageState × Option Err :=
  match History.Next p.history with
  | Except.error e => (p, some e)
  | Except.ok (rawurl, h') =>
    match env.parse rawurl with
    | Except.error e => ({ p with history := h' }, some e)
    | Except.ok u => PageState.load env u { p with history := h' }

/-- `page.Referer` from `src/drivers/test/page.go`: step the history
back (returning `none` if that fails), parse the entry with the error
ignored (`u, _ := url.Parse(rawurl)` — a parse failure yields Go `nil`,
modelled as `none`), then step the history forward again with the
result ignored. -/
def PageState.Referer (env : Env) (p : PageState) :
    PageState × Option String :=
  match History.Previous p.history with
  | Except.error _ => (p, none)
  | Except.ok (rawurl, h') =>
    let u := (env.parse rawurl).toOption
    let h'' := match History.Next h' with
      | Except.ok (_, h2) => h2
      | Except.error _ => h'
    ({ p with history := h'' }, u)

/-- Modelled from the spec (§4.5): the element directory behind
`app.NewElemDB` / `app.NewConcurrentElemDB` is not among the embedded
source files; for the claims below only membership of page identities
matters, so it is modelled as the list of registered element ids,
together with a log of the removal-callback invocations performed by
`page.Close` (in source order). -/
structure TestDriverState where
  elements : List Nat
  callbackLog : List Nat
deriving Repr, DecidableEq

/-- `page.Close` from `src/drivers/test/page.go`: `p.onClose()`, whose
body (installed by `newPage`) is `d.elements.Remove(page)`.  Every
invocation runs the removal callback again — there is no guard — so
each call appends to the invocation log and removes the page id from
the element directory. -/
def PageState.Close (p : PageState) (d : TestDriverState) : TestDriverState :=
  { elements := d.elements.erase p.id,
    callbackLog := d.callbackLog ++ [p.id] }

/-- `newPage` from `src/drivers/test/page.go`: build a fresh page
(fresh markup, fresh empty history, no component), register it in the
driver's element directory, and only then — when a default URL is
configured — run `Load` on it; the page and the load error are
returned together, with no rollback of the registration. -/
def newPage (env : Env) (d : TestDriverState) (newId : Nat)
    (defaultURL : String) : TestDriverState × PageState × Option Err :=
  let d1 : TestDriverState := { d with elements := newId :: d.elements }
  let p0 : PageState :=
    { id := newId, history := History.empty, markupMounted := [],
      component := none }
  if defaultURL.length ≠ 0 then
    let r := PageState.Load env defaultURL p0
    (d1, r.1, r.2)
  else
    (d1, p0, none)

/-- The dispatch-queue worker loop inside `Driver.Run`
(`src/drivers/mac/driver.go`): `for { select { case function :=
<-d.uichan: function() ... } }`.  The queue is the FIFO contents of
`d.uichan`; an entry is a state transformer that either returns
normally (`Except.ok`) or panics (`Except.error` with the panic
message).  The loop calls `function()` with no `recover`, and —
modelled from the spec (§9: panic-based signaling is kept
fatal-on-worker; the `bridge.GoBridge` wrapper that enqueues handler
bodies is not among the embedded sources and installs no recovery) — a
panicking entry propagates out of the loop, carrying the state as it
was when the faulting entry started; the remaining entries are never
executed. -/
def runWorker {σ : Type} (queue : List (σ → Except String σ)) (s : σ) :
    Except (String × σ) σ :=
  match queue with
  | [] => Except.ok s
  | f :: rest =>
    match f s with
    | Except.ok s' => runWorker rest s'
    | Except.error m => Except.error (m, s)

/-- `Driver.CallOnUIGoroutine` from `src/drivers/mac/driver.go`:
`d.uichan <- f` — sending on the channel appends the entry at the back
of the FIFO queue. -/
def CallOnUIGoroutine {σ : Type} (f : σ → Except String σ)
    (uichan : List (σ → Except String σ)) : List (σ → Except String σ) :=
  uichan ++ [f]

/-- Decidable equality for `Except`, used to evaluate the embedded
operations at concrete inputs. -/
instance {ε α : Type} [DecidableEq ε] [DecidableEq α] :
    DecidableEq (Except ε α) := fun a b =>
  match a, b with
  | Except.ok x, Except.ok y =>
    if h : x = y then isTrue (by rw [h])
    else isFalse (by intro hh; injection hh; contradiction)
  | Except.error x, Except.error y =>
    if h : x = y then isTrue (by rw [h])
    else isFalse (by intro hh; injection hh; contradiction)
  | Except.ok _, Except.error _ => isFalse (by intro hh; exact Except.noConfusion hh)
  | Except.error _, Except.ok _ => isFalse (by intro hh; exact Except.noConfusion hh)

/-- Draining a queue whose first segment completes normally continues
with the remaining segment from the accumulated state. -/
theorem runWorker_append {σ : Type} (l1 l2 : List (σ → Except String σ))
    (s s1 : σ) (h : runWorker l1 s = Except.ok s1) :
    runWorker (l1 ++ l2) s = runWorker l2 s1 := by
  induction l1 generalizing s with
  | nil =>
    simp only [runWorker] at h
    injection h with h
    rw [List.nil_append, h]
  | cons f rest ih =>
    simp only [runWorker, List.cons_append] at h ⊢
    cases hf : f s with
    | ok s' =>
      rw [hf] at h
      exact ih s' h
    | error m =>
      rw [hf] at h
      exact Except.noConfusion h

/-- C1 counterexample: the claim states that a panic raised while a
handler body runs on the queue worker is caught at the worker boundary
and that the worker then continues to drain subsequently enqueued
entries.  On the concrete queue holding a panicking entry followed by
an increment entry, starting from state 0, the worker loop of
`Driver.Run` terminates with the panic and state 0: the increment
entry enqueued after the faulting one is never executed, so the run
does not reach the state 1 the claim predicts. -/
theorem C1_counterexample :
    runWorker [fun _ : Nat => Except.error "boom",
               fun s : Nat => Except.ok (s + 1)] 0
        = Except.error ("boom", 0) ∧
    runWorker [fun _ : Nat => Except.error "boom",
               fun s : Nat => Except.ok (s + 1)] 0
        ≠ Except.ok 1 := by
  refine ⟨rfl, fun h => ?_⟩
  exact Except.noConfusion h

/-- C1 (amended): a panic raised inside a queue entry is NOT caught at
the worker boundary: once every entry before the faulting one has run
normally, the worker loop of `Driver.Run` terminates with the panic
and the state accumulated so far, and the entries enqueued after the
faulting one are never executed (the result does not depend on
`post`). -/
theorem C1_panic_terminates_worker {σ : Type}
    (pre post : List (σ → Except String σ)) (f : σ → Except String σ)
    (m : String) (s s1 : σ)
    (hpre : runWorker pre s = Except.ok s1)
    (hf : f s1 = Except.error m) :
    runWorker (pre ++ f :: post) s = Except.error (m, s1) := by
  rw [runWorker_append pre (f :: post) s s1 hpre]
  simp only [runWorker]
  rw [hf]

/-- Witness for `C1_panic_terminates_worker` at a concrete queue. -/
theorem C1_panic_terminates_worker_witness :
    runWorker [fun s : Nat => Except.ok (s + 2),
               fun _ : Nat => Except.error "menu bar construction failed",
               fun s : Nat => Except.ok (s * 10)] 0
      = Except.error ("menu bar construction failed", 2) :=
  C1_panic_terminates_worker [fun s : Nat => Except.ok (s + 2)]
    [fun s : Nat => Except.ok (s * 10)]
    (fun _ : Nat => Except.error "menu bar construction failed")
    "menu bar construction failed" 0 2 rfl rfl

/-- C2: the queue worker of `Driver.Run` executes entries one at a
time in FIFO arrival order.  If `h1` is enqueued (via
`CallOnUIGoroutine`) before `h2`, then — whatever entries surround
them — by the time `h2` runs, the worker has already executed, in
order, every entry enqueued before `h2`, including `h1`: the tail of
the run starting at `h2` is exactly a run of `[h2]` from the state
`s1` accumulated by all earlier entries, so every state mutation made
by `h1` is observable to `h2`. -/
theorem C2_fifo_observability {σ : Type}
    (pre mid : List (σ → Except String σ)) (h1 h2 : σ → Except String σ)
    (s s1 : σ)
    (hrun : runWorker (CallOnUIGoroutine h1 pre ++ mid) s = Except.ok s1) :
    runWorker (CallOnUIGoroutine h2 (CallOnUIGoroutine h1 pre ++ mid)) s
      = runWorker [h2] s1 :=
  runWorker_append (CallOnUIGoroutine h1 pre ++ mid) [h2] s s1 hrun

/-- Witness for `C2_fifo_observability` at a concrete queue: the
second handler observes the increment made by the first. -/
theorem C2_fifo_observability_witness :
    runWorker (CallOnUIGoroutine (fun s : Nat => Except.ok (s * 3))
        (CallOnUIGoroutine (fun s : Nat => Except.ok (s + 2)) [] ++ [])) 0
      = runWorker [fun s : Nat => Except.ok (s * 3)] 2 :=
  C2_fifo_observability [] [] (fun s : Nat => Except.ok (s + 2))
    (fun s : Nat => Except.ok (s * 3)) 0 2 rfl

/-- The internal load transition never touches the page's history. -/
theorem load_history (env : Env) (u : String) (p : PageState) :
    (PageState.load env u p).1.history = p.history := by
  cases hc : p.component with
  | none =>
    cases hf : env.factoryNew (env.compoName u) with
    | error e => simp [PageState.load, hc, hf]
    | ok k =>
      cases hm : env.mountFails k <;> simp [PageState.load, hc, hf, hm]
  | some c =>
    cases hf : env.factoryNew (env.compoName u) with
    | error e => simp [PageState.load, hc, hf]
    | ok k =>
      cases hm : env.mountFails k <;> simp [PageState.load, hc, hf, hm]

/-- Concrete environment used by the witnesses: `"bad url"` fails URL
parsing, the component name `"app://missing"` cannot be resolved by
the factory, the component resolved from `"app://broken"` (component
9) fails to mount, and every other URL resolves to component 7, which
mounts fine. -/
def envW : Env :=
  { parse := fun s =>
      if s = "bad url" then Except.error (Err.parseErr s) else Except.ok s
    compoName := fun s => s
    factoryNew := fun n =>
      if n = "app://missing" then Except.error (Err.factoryErr "missing")
      else if n = "app://broken" then Except.ok 9
      else Except.ok 7
    mountFails := fun c =>
      if c = 9 then some (Err.mountErr "broken") else none }

/-- C9: `Load` on a raw URL that fails parsing returns the parse error
and changes nothing: the whole page state (history entries and cursor,
markup engine contents, component field) is returned unchanged. -/
theorem C9_parse_error_noop (env : Env) (rawurl : String) (p : PageState)
    (e : Err) (h : env.parse rawurl = Except.error e) :
    PageState.Load env rawurl p = (p, some e) := by
  simp only [PageState.Load, h]

/-- Witness for `C9_parse_error_noop` at a concrete page and URL. -/
theorem C9_witness :
    PageState.Load envW "bad url" ⟨2, ⟨["app://a"], 0⟩, [4], some 4⟩
      = (⟨2, ⟨["app://a"], 0⟩, [4], some 4⟩, some (Err.parseErr "bad url")) :=
  C9_parse_error_noop envW "bad url" _ _ rfl

/-- C5: whenever the history step of `Previous`, `Next` or `Reload`
fails (no previous entry, no next entry, or `Current` failing NotFound
on an empty history), the operation returns exactly that error and the
page state — component field, markup engine contents, history — is
returned untouched: the internal load (dismount, factory resolution,
mount) is never reached. -/
theorem C5_history_step_failure (env : Env) (p : PageState) :
    (∀ e, History.Previous p.history = Except.error e →
        PageState.Previous env p = (p, some e)) ∧
    (∀ e, History.Next p.history = Except.error e →
        PageState.Next env p = (p, some e)) ∧
    (∀ e, History.Current p.history = Except.error e →
        PageState.Reload env p = (p, some e)) := by
  refine ⟨fun e he => ?_, fun e he => ?_, fun e he => ?_⟩
  · simp only [PageState.Previous, he]
  · simp only [PageState.Next, he]
  · simp only [PageState.Reload, he]

/-- Witness for `C5_history_step_failure` on a page with an empty
history, where all three steps fail NotFound. -/
theorem C5_witness :
    PageState.Previous envW ⟨1, History.empty, [], none⟩
        = (⟨1, History.empty, [], none⟩, some Err.notFound) ∧
    PageState.Next envW ⟨1, History.empty, [], none⟩
        = (⟨1, History.empty, [], none⟩, some Err.notFound) ∧
    PageState.Reload envW ⟨1, History.empty, [], none⟩
        = (⟨1, History.empty, [], none⟩, some Err.notFound) :=
  ⟨(C5_history_step_failure envW ⟨1, History.empty, [], none⟩).1
      Err.notFound rfl,
   (C5_history_step_failure envW ⟨1, History.empty, [], none⟩).2.1
      Err.notFound rfl,
   (C5_history_step_failure envW ⟨1, History.empty, [], none⟩).2.2
      Err.notFound rfl⟩

/-- C8: every call to `Close` invokes the removal callback installed
by `newPage` — it appends one invocation to the callback log and
removes the page from the element directory — and, there being no
guard against double invocation, a second `Close` invokes the callback
again. -/
theorem C8_close_always_invokes_callback (p : PageState)
    (d : TestDriverState) :
    (PageState.Close p d).callbackLog = d.callbackLog ++ [p.id] ∧
    (PageState.Close p d).elements = d.elements.erase p.id ∧
    (PageState.Close p (PageState.Close p d)).callbackLog
      = d.callbackLog ++ [p.id, p.id] := by
  refine ⟨rfl, rfl, ?_⟩
  simp [PageState.Close]

/-- C10: `newPage` registers the fresh page in the driver's element
directory unconditionally — in particular the registration stands even
when loading the configured default URL fails — and, when a default
URL is configured, the returned page and error are exactly the result
of running `Load` on the freshly built page (fresh empty history, no
component), so a failed initial load still returns the page together
with the error. -/
theorem C10_newPage_registers_before_load (env : Env)
    (d : TestDriverState) (newId : Nat) (defaultURL : String) :
    newId ∈ (newPage env d newId defaultURL).1.elements ∧
    (defaultURL.length ≠ 0 →
      (newPage env d newId defaultURL).2 =
        PageState.Load env defaultURL
          ⟨newId, History.empty, [], none⟩) := by
  constructor
  · by_cases h : defaultURL.length ≠ 0 <;>
      simp [newPage, h]
  · intro h
    simp [newPage, h]

/-- Witness for `C10_newPage_registers_before_load`: the default URL
fails to parse, yet the page id 9 is registered and the page is
returned together with the parse error. -/
theorem C10_witness :
    9 ∈ (newPage envW ⟨[3], []⟩ 9 "bad url").1.elements ∧
    (newPage envW ⟨[3], []⟩ 9 "bad url").2 =
      (⟨9, History.empty, [], none⟩, some (Err.parseErr "bad url")) := by
  refine ⟨(C10_newPage_registers_before_load envW ⟨[3], []⟩ 9 "bad url").1, ?_⟩
  rw [(C10_newPage_registers_before_load envW ⟨[3], []⟩ 9 "bad url").2
      (by decide)]
  rfl

/-- The history-recording step only touches the history field. -/
theorem loadHistoryStep_fields (u : String) (p : PageState) :
    (loadHistoryStep u p).component = p.component ∧
    (loadHistoryStep u p).markupMounted = p.markupMounted ∧
    (loadHistoryStep u p).id = p.id := by
  unfold loadHistoryStep
  cases p.history.Current with
  | error e => exact ⟨rfl, rfl, rfl⟩
  | ok cur =>
    dsimp only
    split <;> exact ⟨rfl, rfl, rfl⟩

/-- On a page with a mounted component, a failing internal load leaves
the component field holding the stale component while the markup
engine has dismounted it; a factory error is returned as is, a mount
error wrapped with the URL and the page identity. -/
theorem load_failure_fields (env : Env) (u : String) (q : PageState)
    (c : Nat) (hc : q.component = some c) :
    (∀ e, env.factoryNew (env.compoName u) = Except.error e →
      PageState.load env u q
        = ({ q with markupMounted := q.markupMounted.erase c }, some e)) ∧
    (∀ k e, env.factoryNew (env.compoName u) = Except.ok k →
        env.mountFails k = some e →
      PageState.load env u q
        = ({ q with markupMounted := q.markupMounted.erase c },
           some (Err.wrapped u q.id e))) := by
  constructor
  · intro e hf
    simp [PageState.load, hc, hf]
  · intro k e hf hm
    simp [PageState.load, hc, hf, hm]

/-- A successful internal load mounts the resolved component and keeps
the history unchanged. -/
theorem load_success (env : Env) (u : String) (q : PageState) (k : Nat)
    (hf : env.factoryNew (env.compoName u) = Except.ok k)
    (hm : env.mountFails k = none) :
    (PageState.load env u q).2 = none ∧
    (PageState.load env u q).1.component = some k ∧
    (PageState.load env u q).1.history = q.history := by
  cases hc : q.component <;> simp [PageState.load, hc, hf, hm]

/-- C4: given that the raw URL parses to the normalized URL `u`,
`Load` records a new history entry exactly when the current history
entry is absent (empty history / error) or differs from `u`; when `u`
equals the current entry the history is left exactly as it was before
the internal load transition runs (which itself never touches the
history). -/
theorem C4_load_history_entry_iff (env : Env) (rawurl u : String)
    (p : PageState) (hp : env.parse rawurl = Except.ok u) :
    ((∀ cur, p.history.Current = Except.ok cur → cur ≠ u) →
      (PageState.Load env rawurl p).1.history
        = History.NewEntry u p.history) ∧
    (p.history.Current = Except.ok u →
      (PageState.Load env rawurl p).1.history = p.history) := by
  have hL : PageState.Load env rawurl p
      = PageState.load env u (loadHistoryStep u p) := by
    simp only [PageState.Load, hp]
  constructor
  · intro hdiff
    rw [hL, load_history]
    unfold loadHistoryStep
    cases hcur : p.history.Current with
    | error e => rfl
    | ok cur =>
      dsimp only
      rw [if_pos (hdiff cur hcur)]
  · intro hcur
    rw [hL, load_history]
    unfold loadHistoryStep
    rw [hcur]
    dsimp only
    rw [if_neg (fun hh => hh rfl)]

/-- Witness for `C4_load_history_entry_iff`: loading `"app://b"` over
current entry `"app://a"` records a new entry; loading `"app://a"`
over itself leaves the history unchanged. -/
theorem C4_witness :
    (PageState.Load envW "app://b"
        ⟨3, ⟨["app://a"], 0⟩, [], none⟩).1.history
      = History.NewEntry "app://b" ⟨["app://a"], 0⟩ ∧
    (PageState.Load envW "app://a"
        ⟨3, ⟨["app://a"], 0⟩, [], none⟩).1.history
      = (⟨["app://a"], 0⟩ : History) := by
  constructor
  · exact (C4_load_history_entry_iff envW "app://b" "app://b"
        ⟨3, ⟨["app://a"], 0⟩, [], none⟩ rfl).1
      (fun cur hcur => by
        injection hcur with hh
        subst hh
        decide)
  · exact (C4_load_history_entry_iff envW "app://a" "app://a"
        ⟨3, ⟨["app://a"], 0⟩, [], none⟩ rfl).2 rfl

/-- C3 counterexample: the claim states that when `Load` fails because
the factory cannot resolve the component, the page is left without a
mounted component — `Component()` is nil — and that the error is
returned wrapped with page-identity context.  On the concrete page
with component 1 mounted and the URL `"app://missing"` whose component
the factory cannot resolve, `Load` leaves the component field holding
the stale component 1 (not nil) and returns the factory error bare,
with no page-identity wrapping. -/
theorem C3_counterexample :
    (PageState.Load envW "app://missing"
        ⟨5, ⟨["app://x"], 0⟩, [1], some 1⟩).1.component ≠ none ∧
    (PageState.Load envW "app://missing"
        ⟨5, ⟨["app://x"], 0⟩, [1], some 1⟩).1.component = some 1 ∧
    (PageState.Load envW "app://missing"
        ⟨5, ⟨["app://x"], 0⟩, [1], some 1⟩).2
      = some (Err.factoryErr "missing") := by
  refine ⟨?_, ?_, ?_⟩
  · decide
  · decide
  · decide

/-- C3 (amended): when `Load(url)` fails because the factory cannot
resolve the component or the markup engine cannot mount it, there is
no rollback: the previously mounted component has been dismounted from
the markup engine, but the page's component field still holds that
stale component — `Component()` returns the previous component, not
nil.  The error is returned to the caller: a mount failure wrapped
with page-identity context, a factory-resolution failure as is,
unwrapped. -/
theorem C3_load_failure_stale_component (env : Env) (rawurl u : String)
    (p : PageState) (c : Nat)
    (hp : env.parse rawurl = Except.ok u) (hc : p.component = some c) :
    (∀ e, env.factoryNew (env.compoName u) = Except.error e →
      (PageState.Load env rawurl p).1.component = some c ∧
      (PageState.Load env rawurl p).1.markupMounted
          = p.markupMounted.erase c ∧
      (PageState.Load env rawurl p).2 = some e) ∧
    (∀ k e, env.factoryNew (env.compoName u) = Except.ok k →
        env.mountFails k = some e →
      (PageState.Load env rawurl p).1.component = some c ∧
      (PageState.Load env rawurl p).1.markupMounted
          = p.markupMounted.erase c ∧
      (PageState.Load env rawurl p).2 = some (Err.wrapped u p.id e)) := by
  have hL : PageState.Load env rawurl p
      = PageState.load env u (loadHistoryStep u p) := by
    simp only [PageState.Load, hp]
  obtain ⟨hcomp, hmk, hid⟩ := loadHistoryStep_fields u p
  have hc1 : (loadHistoryStep u p).component = some c := by rw [hcomp, hc]
  obtain ⟨F, M⟩ := load_failure_fields env u (loadHistoryStep u p) c hc1
  constructor
  · intro e hf
    rw [hL, F e hf]
    exact ⟨hc1, by rw [hmk], rfl⟩
  · intro k e hf hm
    rw [hL, M k e hf hm]
    exact ⟨hc1, by rw [hmk], by rw [hid]⟩

/-- Witness for `C3_load_failure_stale_component`, exercising both the
factory-failure branch (URL `"app://missing"`) and the mount-failure
branch (URL `"app://broken"`, component 9) on a page with component 1
mounted. -/
theorem C3_witness :
    ((PageState.Load envW "app://missing"
        ⟨5, ⟨["app://x"], 0⟩, [1, 2], some 1⟩).1.component = some 1 ∧
     (PageState.Load envW "app://missing"
        ⟨5, ⟨["app://x"], 0⟩, [1, 2], some 1⟩).1.markupMounted = [2] ∧
     (PageState.Load envW "app://missing"
        ⟨5, ⟨["app://x"], 0⟩, [1, 2], some 1⟩).2
       = some (Err.factoryErr "missing")) ∧
    ((PageState.Load envW "app://broken"
        ⟨5, ⟨["app://x"], 0⟩, [1, 2], some 1⟩).1.component = some 1 ∧
     (PageState.Load envW "app://broken"
        ⟨5, ⟨["app://x"], 0⟩, [1, 2], some 1⟩).1.markupMounted = [2] ∧
     (PageState.Load envW "app://broken"
        ⟨5, ⟨["app://x"], 0⟩, [1, 2], some 1⟩).2
       = some (Err.wrapped "app://broken" 5 (Err.mountErr "broken"))) := by
  constructor
  · have h := (C3_load_failure_stale_component envW "app://missing"
        "app://missing" ⟨5, ⟨["app://x"], 0⟩, [1, 2], some 1⟩ 1 rfl rfl).1
      (Err.factoryErr "missing") rfl
    exact ⟨h.1, h.2.1, h.2.2⟩
  · have h := (C3_load_failure_stale_component envW "app://broken"
        "app://broken" ⟨5, ⟨["app://x"], 0⟩, [1, 2], some 1⟩ 1 rfl rfl).2
      9 (Err.mountErr "broken") rfl rfl
    exact ⟨h.1, h.2.1, h.2.2⟩

/-- C7: with a non-empty history and the (pure, hence deterministic)
factory, a second `Reload` right after a successful one succeeds again
and mounts the same component identity: `Reload` reads but never moves
the history, so both rounds resolve the same URL to the same
component. -/
theorem C7_reload_idempotent (env : Env) (p : PageState)
    (_hne : p.history.entries ≠ [])
    (h1 : (PageState.Reload env p).2 = none) :
    (PageState.Reload env (PageState.Reload env p).1).2 = none ∧
    (PageState.Reload env (PageState.Reload env p).1).1.component
      = (PageState.Reload env p).1.component := by
  cases hcur : p.history.Current with
  | error e => simp [PageState.Reload, hcur] at h1
  | ok raw =>
    cases hp : env.parse raw with
    | error e => simp [PageState.Reload, hcur, hp] at h1
    | ok u =>
      have hL : PageState.Reload env p = PageState.load env u p := by
        simp [PageState.Reload, hcur, hp]
      rw [hL] at h1 ⊢
      cases hf : env.factoryNew (env.compoName u) with
      | error e =>
        exfalso
        cases hcq : p.component <;>
          simp [PageState.load, hcq, hf] at h1
      | ok k =>
        cases hm : env.mountFails k with
        | some e =>
          exfalso
          cases hcq : p.component <;>
            simp [PageState.load, hcq, hf, hm] at h1
        | none =>
          obtain ⟨-, hcomp, hhist⟩ := load_success env u p k hf hm
          have hcur2 : (PageState.load env u p).1.history.Current
              = Except.ok raw := by rw [hhist]; exact hcur
          have hL2 : PageState.Reload env (PageState.load env u p).1
              = PageState.load env u (PageState.load env u p).1 := by
            simp [PageState.Reload, hcur2, hp]
          rw [hL2]
          obtain ⟨h2none, h2comp, -⟩ :=
            load_success env u (PageState.load env u p).1 k hf hm
          exact ⟨h2none, by rw [h2comp, hcomp]⟩

/-- Witness for `C7_reload_idempotent` on a page whose single history
entry resolves to component 7. -/
theorem C7_witness :
    (PageState.Reload envW
        (PageState.Reload envW ⟨6, ⟨["app://a"], 0⟩, [], none⟩).1).2
      = none ∧
    (PageState.Reload envW
        (PageState.Reload envW ⟨6, ⟨["app://a"], 0⟩, [], none⟩).1).1.component
      = (PageState.Reload envW ⟨6, ⟨["app://a"], 0⟩, [], none⟩).1.component :=
  C7_reload_idempotent envW ⟨6, ⟨["app://a"], 0⟩, [], none⟩
    (by decide) rfl

/-- C6: for a page whose history satisfies the cursor invariant and
whose entries all parse (which holds for every history populated
through `Load`, since only normalized URLs of successfully parsed
strings are recorded), `Referer` returns `none` exactly when the
history step back fails (no previous entry); otherwise it returns the
parsed entry just below the current one; and in all cases the page —
history cursor included — is returned exactly as it was: the
`Previous()` probe is undone by the immediately following `Next()`. -/
theorem C6_referer_peek_restores (env : Env) (p : PageState)
    (hwf : p.history.WF)
    (hparse : ∀ x ∈ p.history.entries, ∃ v, env.parse x = Except.ok v) :
    (PageState.Referer env p).1 = p ∧
    ((PageState.Referer env p).2 = none ↔
      (∃ e, History.Previous p.history = Except.error e)) ∧
    (∀ raw h', History.Previous p.history = Except.ok (raw, h') →
      ∀ v, env.parse raw = Except.ok v →
        (PageState.Referer env p).2 = some v) := by
  cases hc : p.history.cursor with
  | zero =>
    have hprev : History.Previous p.history = Except.error Err.notFound := by
      simp [History.Previous, hc]
    refine ⟨by simp [PageState.Referer, hprev], ?_, ?_⟩
    · constructor
      · intro _
        exact ⟨Err.notFound, hprev⟩
      · intro _
        simp [PageState.Referer, hprev]
    · intro raw h' hok
      rw [hprev] at hok
      exact Except.noConfusion hok
  | succ n =>
    have hlt : n + 1 < p.history.entries.length := by
      rcases hwf with ⟨he, h0⟩ | hl
      · omega
      · omega
    obtain ⟨raw, hg⟩ : ∃ raw, p.history.entries.get? n = some raw := by
      cases hg : p.history.entries.get? n with
      | some r => exact ⟨r, rfl⟩
      | none =>
        rw [List.get?_eq_none] at hg
        omega
    obtain ⟨w, hgw⟩ : ∃ w, p.history.entries.get? (n + 1) = some w := by
      cases hgw : p.history.entries.get? (n + 1) with
      | some r => exact ⟨r, rfl⟩
      | none =>
        rw [List.get?_eq_none] at hgw
        omega
    have hg' : p.history.entries[n]? = some raw := by
      rw [← List.get?_eq_getElem?]
      exact hg
    have hgw' : p.history.entries[n + 1]? = some w := by
      rw [← List.get?_eq_getElem?]
      exact hgw
    have hprev : History.Previous p.history
        = Except.ok (raw, ⟨p.history.entries, n⟩) := by
      simp [History.Previous, hc, hg']
    have hnext : History.Next ⟨p.history.entries, n⟩
        = Except.ok (w, ⟨p.history.entries, n + 1⟩) := by
      simp [History.Next, hgw']
    have hhist : (⟨p.history.entries, n + 1⟩ : History) = p.history := by
      rw [← hc]
    have href : PageState.Referer env p
        = (p, (env.parse raw).toOption) := by
      simp only [PageState.Referer, hprev, hnext]
      rw [hhist]
    obtain ⟨v, hv⟩ := hparse raw (List.get?_mem hg)
    refine ⟨by rw [href], ?_, ?_⟩
    · constructor
      · intro hnone
        rw [href] at hnone
        rw [hv] at hnone
        exact Option.noConfusion hnone
      · intro ⟨e, he⟩
        rw [hprev] at he
        exact Except.noConfusion he
    · intro raw' h' hok v' hv'
      rw [hprev] at hok
      injection hok with hpair
      have hraw : raw = raw' := (Prod.mk.injEq _ _ _ _).mp hpair |>.1
      subst hraw
      rw [href, hv']
      rfl

/-- Witness for `C6_referer_peek_restores` on a page whose history
holds two entries with the cursor on the second: `Referer` returns the
entry below the current one and restores the page, cursor included. -/
theorem C6_witness :
    (PageState.Referer envW
        ⟨8, ⟨["app://a", "app://b"], 1⟩, [7], some 7⟩).1
      = ⟨8, ⟨["app://a", "app://b"], 1⟩, [7], some 7⟩ ∧
    (PageState.Referer envW
        ⟨8, ⟨["app://a", "app://b"], 1⟩, [7], some 7⟩).2
      = some "app://a" := by
  have hparse :
      ∀ x ∈ [("app://a" : String), "app://b"],
        ∃ v, envW.parse x = Except.ok v := by
    intro x hx
    refine ⟨x, ?_⟩
    fin_cases hx <;> rfl
  have h := C6_referer_peek_restores envW
    ⟨8, ⟨["app://a", "app://b"], 1⟩, [7], some 7⟩
    (Or.inr (by decide)) hparse
  exact ⟨h.1, h.2.2 "app://a" ⟨["app://a", "app://b"], 0⟩ rfl "app://a" rfl⟩
